import Mathlib

/-!
Shallow embedding of the semantic-traceability core of the COVADEV repository,
together with proofs about the behaviour of its matcher, similarity, metrics,
BPMN precheck and code-extractor components.

Conventions of the embedding:
* Python `float` values are modelled as `ℚ` (the claims under study are purely
  order/field-theoretic, not about IEEE rounding).
* Python `int` is modelled as `ℤ` (or `ℕ` where the source value is a length).
* Functions that can raise a `ValueError` are modelled as `Except String`.
* `numpy` arrays are modelled as `List (List ℚ)`; `np.asarray` failures on
  ragged input and `ndim != 2` conditions are folded into one error branch.
* Python's stable `list.sort(key=..., reverse=True)` and the stable variant of
  `np.argsort` are modelled with `List.insertionSort` (Mathlib's insertion
  sort is stable; for `argsort` the relation carries an explicit index
  tie-break, which is exactly what stability provides on a sort of `range`).
-/

namespace COVADEV

/-! ### Metrics — src/apps/analysis/metrics/metrics.py -/

/-- Python `safe_div(n, d)`: `0.0 if d == 0 else float(n) / float(d)`. -/
def safe_div (n d : ℚ) : ℚ := if d = 0 then 0 else n / d

/-- Python `precision(tp, fp) = safe_div(tp, tp + fp)`. -/
def precision (tp fp : ℤ) : ℚ := safe_div tp (tp + fp)

/-- Python `recall(tp, fn) = safe_div(tp, tp + fn)`. -/
def «recall» (tp fn : ℤ) : ℚ := safe_div tp (tp + fn)

/-- Python `f1_score(p, r) = 0.0 if (p + r) == 0 else 2 * p * r / (p + r)`. -/
def f1_score (p r : ℚ) : ℚ := if p + r = 0 then 0 else 2 * p * r / (p + r)

/-- Python `alignment_pct(matched, total_tasks)`:
`0.0 if total_tasks == 0 else (matched / total_tasks) * 100.0`. -/
def alignment_pct (matched total_tasks : ℤ) : ℚ :=
  if total_tasks = 0 then 0 else ((matched : ℚ) / (total_tasks : ℚ)) * 100

/-! ### Matcher — src/apps/analysis/semantic/matcher.py -/

/-- The `similarity` dict consumed by the matchers: keys `task_ids`,
`code_ids` and `matrix` (a missing or `None` `matrix` key is normalised to
`[]` by `similarity.get("matrix") or []` and is therefore represented by the
empty list here). -/
structure SimilarityInput where
  task_ids : List String
  code_ids : List String
  matrix : List (List ℚ)
deriving DecidableEq

/-- Python dataclass `MatchMeta`. -/
structure MatchMeta where
  threshold : ℚ
  strategy : String
deriving DecidableEq

/-- Python dataclass `MatchPair`. -/
structure MatchPair where
  task_id : String
  code_id : String
  score : ℚ
deriving DecidableEq

/-- The dict returned by both matchers. -/
structure MatchResult where
  meta : MatchMeta
  matched : List MatchPair
  missing : List String
  extra : List String
deriving DecidableEq

/-- A list of rows is a rectangular 2-D array (every row has the length of
the first row).  `np.asarray` on a ragged list either raises or produces a
1-D object array, and both paths end in a `ValueError` in the source. -/
def isRectangular (m : List (List ℚ)) : Bool :=
  match m with
  | [] => true
  | r :: rs => rs.all (fun row => row.length = r.length)

/-- The validated content of a similarity dict: ids plus the numpy matrix
`S` (possibly the substituted all-zeros matrix). -/
structure ValidatedSim where
  task_ids : List String
  code_ids : List String
  S : List (List ℚ)
deriving DecidableEq

/-- Python `_validate_similarity(similarity)`.

* `np.asarray(matrix).size == 0` (that is: every row empty, including the
  empty list itself) short-circuits to a zero matrix of shape `(N, M)`;
* otherwise a ragged / non-2-D matrix raises;
* otherwise a shape different from `(len(task_ids), len(code_ids))` raises. -/
def validate_similarity (sim : SimilarityInput) : Except String ValidatedSim :=
  let task_ids := sim.task_ids
  let code_ids := sim.code_ids
  let m := sim.matrix
  if m.all (fun row => row.isEmpty) then
    Except.ok ⟨task_ids, code_ids,
      List.replicate task_ids.length (List.replicate code_ids.length 0)⟩
  else if ¬ isRectangular m then
    Except.error "similarity matrix must be a 2D matrix (list of lists)"
  else if m.length ≠ task_ids.length ∨ (m.headD []).length ≠ code_ids.length then
    Except.error "matrix shape does not match ids"
  else
    Except.ok ⟨task_ids, code_ids, m⟩

/-- `float(S[i, j])` with the list representation. -/
def getScore (S : List (List ℚ)) (i j : ℕ) : ℚ := (S.getD i []).getD j 0

/-- The candidate list of `greedy_one_to_one_match`: all `(score, i, j)`
with `score >= threshold`, enumerated row-major. -/
def buildCandidates (S : List (List ℚ)) (n_tasks n_code : ℕ) (thr : ℚ) :
    List (ℚ × ℕ × ℕ) :=
  (List.range n_tasks).flatMap (fun i =>
    (List.range n_code).filterMap (fun j =>
      let score := getScore S i j
      if thr ≤ score then some (score, i, j) else none))

/-- Python `candidates.sort(key=lambda x: x[0], reverse=True)`: a stable
descending sort on the score component. -/
def sortCandidates (cs : List (ℚ × ℕ × ℕ)) : List (ℚ × ℕ × ℕ) :=
  List.insertionSort (fun a b => b.1 ≤ a.1) cs

/-- The greedy assignment loop of `greedy_one_to_one_match`: walk the sorted
candidates, accept a pair iff neither endpoint is claimed yet.  The Python
mutable sets `assigned_tasks` / `assigned_code` are threaded as lists. -/
def greedyAssign : List (ℚ × ℕ × ℕ) → List ℕ → List ℕ → List (ℕ × ℕ × ℚ)
  | [], _, _ => []
  | (score, i, j) :: rest, aT, aC =>
    if i ∈ aT then greedyAssign rest aT aC
    else if j ∈ aC then greedyAssign rest aT aC
    else (i, j, score) :: greedyAssign rest (i :: aT) (j :: aC)

/-- Python `greedy_one_to_one_match(similarity=..., threshold=...)`.
The source appends `MatchPair(task_ids[i], code_ids[j], score)` inside the
loop; here the accepted index triples are mapped to pairs afterwards, which
yields the same list. -/
def greedy_one_to_one_match (similarity : SimilarityInput) (threshold : ℚ) :
    Except String MatchResult :=
  (validate_similarity similarity).map (fun v =>
    let n_tasks := v.task_ids.length
    let n_code := v.code_ids.length
    let candidates := buildCandidates v.S n_tasks n_code threshold
    let assigned := greedyAssign (sortCandidates candidates) [] []
    let matchList := assigned.map (fun t =>
      MatchPair.mk (v.task_ids.getD t.1 "") (v.code_ids.getD t.2.1 "") t.2.2)
    let assigned_tasks := assigned.map (fun t => t.1)
    let assigned_code := assigned.map (fun t => t.2.1)
    let missing := ((List.range n_tasks).filter (fun i => i ∉ assigned_tasks)).map
      (fun i => v.task_ids.getD i "")
    let extra := ((List.range n_code).filter (fun j => j ∉ assigned_code)).map
      (fun j => v.code_ids.getD j "")
    ⟨⟨threshold, "greedy_one_to_one"⟩, matchList, missing, extra⟩)

/-- `int(np.argmax(row))`: the lowest index attaining the maximum of the
row (`0` on the empty row, which the source never queries). -/
def argmaxIdx : List ℚ → ℕ
  | [] => 0
  | x :: rest =>
    match rest with
    | [] => 0
    | y :: rs =>
      let k := argmaxIdx (y :: rs)
      if x < (y :: rs).getD k 0 then k + 1 else 0

/-- Python `best_per_task_match(similarity=..., threshold=...)`.  The Python
sets `matched_task_ids` / `used_code_ids` are replaced by list membership,
which is the same predicate. -/
def best_per_task_match (similarity : SimilarityInput) (threshold : ℚ) :
    Except String MatchResult :=
  (validate_similarity similarity).map (fun v =>
    let n_tasks := v.task_ids.length
    let n_code := v.code_ids.length
    let matchList := (List.range n_tasks).filterMap (fun i =>
      if n_code = 0 then none
      else
        let row := v.S.getD i []
        let j := argmaxIdx row
        let score := row.getD j 0
        if threshold ≤ score then
          some (MatchPair.mk (v.task_ids.getD i "") (v.code_ids.getD j "") score)
        else none)
    let matched_task_ids := matchList.map (fun m => m.task_id)
    let used_code_ids := matchList.map (fun m => m.code_id)
    let missing := v.task_ids.filter (fun tid => tid ∉ matched_task_ids)
    let extra := v.code_ids.filter (fun cid => cid ∉ used_code_ids)
    ⟨⟨threshold, "best_per_task_many_to_one"⟩, matchList, missing, extra⟩)

/-! ### Similarity — src/apps/analysis/semantic/similarity.py -/

/-- An embedding record as consumed by `compute_similarity`: only the `id`
and `vector` fields are read (`x.get("vector") or []` normalises a missing
vector to `[]`, represented by the empty list). -/
structure EmbeddingRecord where
  id : String
  vector : List ℚ
deriving DecidableEq

/-- `np.clip(x, -1.0, 1.0)` on one entry. -/
def clip (x : ℚ) : ℚ := max (-1) (min x 1)

/-- The dot product of two equal-length vectors (`S[i, j] = dot(T[i], C[j])`). -/
def dotProduct (u v : List ℚ) : ℚ := ((u.zip v).map (fun p => p.1 * p.2)).sum

/-- Python `_to_matrix(vectors)`: `np.asarray` + `ndim != 2` check.  The
empty list has numpy shape `(0,)` and therefore also raises. -/
def to_matrix (vectors : List (List ℚ)) : Except String (List (List ℚ)) :=
  match vectors with
  | [] => Except.error "vectors must be a 2D list/array with shape (N, D)"
  | v :: vs =>
    if isRectangular (v :: vs) then Except.ok (v :: vs)
    else Except.error "vectors must be a 2D list/array with shape (N, D)"

/-- Python `cosine_similarity_matrix(task_vectors, code_vectors)`:
dimension check, clipped dot-product matrix. -/
def cosine_similarity_matrix (task_vectors code_vectors : List (List ℚ)) :
    Except String (List (List ℚ)) := do
  let T ← to_matrix task_vectors
  let C ← to_matrix code_vectors
  if (T.headD []).length ≠ (C.headD []).length then
    Except.error "Vector dim mismatch"
  else
    Except.ok (T.map (fun t => C.map (fun c => clip (dotProduct t c))))

/-- The dict returned by `compute_similarity` (meta flattened). -/
structure SimilarityOutput where
  metric : String
  task_count : ℕ
  code_count : ℕ
  task_ids : List String
  code_ids : List String
  matrix : List (List ℚ)
deriving DecidableEq

/-- Python `compute_similarity(task_embeddings=..., code_embeddings=...)`:
degenerate empty result when either vector list is empty, else the clipped
cosine matrix. -/
def compute_similarity (task_embeddings code_embeddings : List EmbeddingRecord) :
    Except String SimilarityOutput :=
  let task_ids := task_embeddings.map (fun x => x.id)
  let code_ids := code_embeddings.map (fun x => x.id)
  let task_vecs := task_embeddings.map (fun x => x.vector)
  let code_vecs := code_embeddings.map (fun x => x.vector)
  if task_vecs.isEmpty ∨ code_vecs.isEmpty then
    Except.ok ⟨"cosine", task_vecs.length, code_vecs.length, task_ids, code_ids, []⟩
  else
    (cosine_similarity_matrix task_vecs code_vecs).map (fun S =>
      ⟨"cosine", S.length, (S.headD []).length, task_ids, code_ids, S⟩)

/-- The order used to model the stable ascending `np.argsort(row)`: compare
by row value, break ties by the original index.  On the `range` input this
is exactly what a stable value-sort produces. -/
def argsortAscLe (row : List ℚ) (i j : ℕ) : Prop :=
  row.getD i 0 < row.getD j 0 ∨ (row.getD i 0 = row.getD j 0 ∧ i ≤ j)

instance (row : List ℚ) : DecidableRel (argsortAscLe row) := fun i j => by
  unfold argsortAscLe; infer_instance

instance (row : List ℚ) : IsTrans ℕ (argsortAscLe row) where
  trans := by
    intro a b c hab hbc
    rcases hab with h1 | ⟨e1, le1⟩ <;> rcases hbc with h2 | ⟨e2, le2⟩
    · exact Or.inl (lt_trans h1 h2)
    · exact Or.inl (e2 ▸ h1)
    · exact Or.inl (e1 ▸ h2)
    · exact Or.inr ⟨e1.trans e2, le1.trans le2⟩

instance (row : List ℚ) : IsTotal ℕ (argsortAscLe row) where
  total := by
    intro a b
    rcases lt_trichotomy (row.getD a 0) (row.getD b 0) with h | h | h
    · exact Or.inl (Or.inl h)
    · rcases Nat.le_total a b with hle | hle
      · exact Or.inl (Or.inr ⟨h, hle⟩)
      · exact Or.inr (Or.inr ⟨h.symm, hle⟩)
    · exact Or.inr (Or.inl h)

/-- `np.argsort(row)` (stable, ascending) over indices `0..M-1`. -/
def argsortAsc (row : List ℚ) : List ℕ :=
  List.insertionSort (argsortAscLe row) (List.range row.length)

/-- Python slicing `l[-k:]` for `0 ≤ k ≤ len(l)`.  Note `l[-0:]` is the whole
list, because `-0 == 0` in Python. -/
def tailSlice {α : Type} (l : List α) (k : ℕ) : List α :=
  if k = 0 then l else l.drop (l.length - k)

/-- Python `top_k_matches(similarity=..., k=...)`.

The Python dict result (insertion-ordered, keyed by `task_ids[i]`) is
modelled as an association list in row order.  The `IndexError` that
`task_ids[i]` / `code_ids[j]` would raise on id lists shorter than the
matrix dimensions is modelled at whole-list granularity. -/
def top_k_matches (similarity : SimilarityInput) (k : ℤ) :
    Except String (List (String × List (String × ℚ))) :=
  let task_ids := similarity.task_ids
  let code_ids := similarity.code_ids
  let matrix := similarity.matrix
  if matrix.isEmpty then
    Except.ok (task_ids.map (fun tid => (tid, [])))
  else if ¬ isRectangular matrix then
    Except.error "matrix is not a 2D array"
  else
    let M := (matrix.headD []).length
    let k_eff : ℕ := (max 0 (min k (M : ℤ))).toNat
    if task_ids.length < matrix.length then
      Except.error "IndexError: task_ids"
    else if code_ids.length < M then
      Except.error "IndexError: code_ids"
    else
      Except.ok ((List.range matrix.length).map (fun i =>
        let row := matrix.getD i []
        let idx := (tailSlice (argsortAsc row) k_eff).reverse
        (task_ids.getD i "",
         idx.map (fun j => (code_ids.getD j "", row.getD j 0)))))

/-! ### BPMN precheck — src/apps/analysis/bpmn/precheck.py

The XML-level gates 1–3 (well-formed XML, presence of a `process` element,
graph extraction) act before a graph value exists; the embedding starts from
the parsed graph, i.e. models gates 4–11 of `precheck_bpmn_xml` as a
function of the extracted graph. -/

/-- A parsed BPMN node (task, event or gateway): `{id, name, type}`. -/
structure BpmnNode where
  id : String
  name : String
  type : String
deriving DecidableEq

/-- A parsed BPMN sequence flow: `{id, source, target}`. -/
structure BpmnFlow where
  id : String
  source : String
  target : String
deriving DecidableEq

/-- The graph dict produced by `extract_bpmn_graph`, as read by the precheck. -/
structure BpmnGraph where
  process_name : String
  tasks : List BpmnNode
  events : List BpmnNode
  gateways : List BpmnNode
  flows : List BpmnFlow
deriving DecidableEq

/-- Python dataclass `PrecheckResult`. -/
structure PrecheckResult where
  ok : Bool
  errors : List String
  warnings : List String
  process_name : String
  task_count : ℕ
deriving DecidableEq

/-- Python `str.strip()`, modelled on the character list (the library trim
on `String` is not used because the claims are settled by evaluation and
this form reduces in the kernel). -/
def pyStrip (s : String) : String :=
  String.mk (((s.data.dropWhile Char.isWhitespace).reverse.dropWhile
    Char.isWhitespace).reverse)

/-- `node_ids_list`: stripped ids of all tasks, events and gateways whose raw
id is truthy (non-empty). -/
def nodeIdsList (g : BpmnGraph) : List String :=
  ((g.tasks ++ g.events ++ g.gateways).filter (fun n => n.id ≠ "")).map
    (fun n => pyStrip n.id)

/-- The duplicate-ids error text: `sorted({i : count(i) > 1})`, capped at 10. -/
def dupIdsMessage (ids : List String) : String :=
  let dupes := List.insertionSort (fun a b : String => a ≤ b)
    ((ids.filter (fun i => 1 < ids.count i)).dedup)
  "Duplicate BPMN element IDs found: " ++ String.intercalate ", " (dupes.take 10)

/-- The label a flow gets in `bad_flows`: its stripped id, or `[no-id]`
when that is empty (`... or "[no-id]"`). -/
def flowLabel (f : BpmnFlow) : String :=
  if pyStrip f.id = "" then "[no-id]" else pyStrip f.id

/-- The issue (if any) that one flow contributes to `bad_flows`. -/
def flowIssue (node_ids : List String) (f : BpmnFlow) : Option String :=
  if pyStrip f.source = "" ∨ pyStrip f.target = "" then
    some (flowLabel f ++ " (missing sourceRef/targetRef)")
  else if pyStrip f.source ∉ node_ids ∨ pyStrip f.target ∉ node_ids then
    some (flowLabel f ++ " (invalid ref " ++ pyStrip f.source ++ " -> " ++
      pyStrip f.target ++ ")")
  else none

/-- `out_edges[x]`: targets of all flows whose stripped source is `x`, in
flow order. -/
def outEdges (flows : List BpmnFlow) (x : String) : List String :=
  (flows.filter (fun f => pyStrip f.source = x)).map (fun f => pyStrip f.target)

/-- `in_deg[x]`: number of flows whose stripped target is `x`. -/
def inDegree (flows : List BpmnFlow) (x : String) : ℕ :=
  (flows.map (fun f => pyStrip f.target)).count x

/-- `used`: every stripped source or target touched by some flow. -/
def usedIds (flows : List BpmnFlow) : List String :=
  flows.flatMap (fun f => [pyStrip f.source, pyStrip f.target])

/-- One closure step of the breadth-first traversal: add all successors of
the current reachable set. -/
def reachStep (flows : List BpmnFlow) (r : List String) : List String :=
  (r ++ r.flatMap (outEdges flows)).dedup

/-- The reachable set of the BFS in step 10, computed as a fuelled closure
(the visited *set* of the deque-based BFS; enough fuel makes it the least
fixed point containing the entry nodes). -/
def reachableFrom (flows : List BpmnFlow) (entry : List String) (fuel : ℕ) :
    List String :=
  match fuel with
  | 0 => entry
  | fuel + 1 => reachableFrom flows (reachStep flows entry) fuel

/-- Python `precheck_bpmn_xml`, gates 4–11, as a function of the parsed
graph.  Hard gates short-circuit with `ok=False`; the soft steps 6 and 8–11
only accumulate warnings. -/
def precheckGraph (g : BpmnGraph) : PrecheckResult :=
  let task_count := g.tasks.length
  if task_count = 0 then
    ⟨false, ["No BPMN tasks found (task/userTask/serviceTask/...)."], [],
      g.process_name, 0⟩
  else
    let node_ids_list := nodeIdsList g
    if ¬ node_ids_list.Nodup then
      ⟨false, [dupIdsMessage node_ids_list], [], g.process_name, task_count⟩
    else
      let start_ids := (g.events.filter (fun e => e.type = "startEvent" ∧ e.id ≠ "")).map
        (fun e => e.id)
      let end_ids := (g.events.filter (fun e => e.type = "endEvent" ∧ e.id ≠ "")).map
        (fun e => e.id)
      let warnings_se :=
        (if start_ids.isEmpty then ["No startEvent found (model may be incomplete)."] else []) ++
        (if end_ids.isEmpty then ["No endEvent found (model may be incomplete)."] else [])
      let bad_flows := g.flows.filterMap (flowIssue node_ids_list)
      if bad_flows ≠ [] then
        ⟨false,
          ["Invalid sequenceFlow references: " ++ String.intercalate "; " (bad_flows.take 10)],
          warnings_se, g.process_name, task_count⟩
      else
        let used := usedIds g.flows
        let orphan_tasks := g.tasks.filterMap (fun t =>
          let tid := pyStrip t.id
          if tid ≠ "" ∧ tid ∉ used then some tid else none)
        let warnings_orphan :=
          if orphan_tasks ≠ [] then
            [toString orphan_tasks.length ++ " orphan task(s) not connected by any sequenceFlow."]
          else []
        let entry_nodes :=
          if start_ids ≠ [] then start_ids
          else (node_ids_list.dedup).filter (fun nid => inDegree g.flows nid = 0)
        let warnings_entry :=
          if start_ids = [] ∧ entry_nodes = [] then
            ["Could not find an entry node (no startEvent and no in-degree-0 nodes)."]
          else []
        let reachable := reachableFrom g.flows entry_nodes
          (entry_nodes.length + g.flows.length)
        let unreachable_tasks := g.tasks.filterMap (fun t =>
          let tid := pyStrip t.id
          if tid ≠ "" ∧ tid ∉ reachable then some tid else none)
        let warnings_unreach :=
          if unreachable_tasks ≠ [] then
            [toString unreachable_tasks.length ++ " task(s) are unreachable from the start/entry node."]
          else []
        let warnings_end :=
          if end_ids ≠ [] ∧ ¬ end_ids.any (fun eid => eid ∈ reachable) then
            ["No endEvent is reachable from the start/entry node (disconnected flow)."]
          else []
        let warnings_gw := g.gateways.flatMap (fun gw =>
          let gid := pyStrip gw.id
          let gtype := pyStrip gw.type
          let out_count := (outEdges g.flows gid).length
          let isBranching := gtype = "exclusiveGateway" ∨ gtype = "parallelGateway" ∨
            gtype = "inclusiveGateway"
          (if isBranching ∧ out_count = 0 then
            ["Gateway " ++ gid ++ " (" ++ gtype ++ ") has no outgoing sequenceFlow."]
          else []) ++
          (if isBranching ∧ out_count = 1 then
            ["Gateway " ++ gid ++ " (" ++ gtype ++ ") has only 1 outgoing flow (might be unnecessary)."]
          else []))
        ⟨true, [],
          warnings_se ++ warnings_orphan ++ warnings_entry ++ warnings_unreach ++
            warnings_end ++ warnings_gw,
          g.process_name, task_count⟩

/-! ### Code structural extractor — src/apps/analysis/code/structured_extractor.py

The extractor runs `ast.parse` on the file text and visits the tree.  The
embedding starts from the parsed abstract syntax: a small Python AST with the
node shapes that `_Visitor`, `_build_one` and `extract_structured_functions`
inspect (decorators, argument defaults and annotation expressions are not
represented; the visitor never reads them in a way the claims depend on). -/

/-- A Python expression as far as the visitor distinguishes them.
`constant` carries the `str(value)` rendering of the literal. -/
inductive PyExpr where
  | name (id : String)
  | attribute (value : PyExpr) (attr : String)
  | constant (value : String)
  | call (func : PyExpr) (args : List PyExpr)

/-- A Python statement as far as the visitor distinguishes them. -/
inductive PyStmt where
  | assign (targets : List PyExpr) (value : PyExpr)
  | annAssign (target : PyExpr) (value : Option PyExpr)
  | ret (value : Option PyExpr)
  | raiseStmt (exc : Option PyExpr)
  | exprStmt (e : PyExpr)
  | ifStmt (cond : PyExpr) (body orelse : List PyStmt)

/-- Python `_attr_chain(node)`: `a.b.c` for an attribute chain rooted in a
`Name`, else `None`. -/
def attrChain : PyExpr → Option String
  | .name id => some id
  | .attribute v a => (attrChain v).map (fun s => s ++ "." ++ a)
  | _ => none

/-- The mutable lists of `_Visitor`. -/
structure VisitAcc where
  calls : List String
  writes : List String
  returns : List String
  exceptions : List String
deriving DecidableEq

/-- `ast.NodeVisitor` traversal over expressions: `visit_Call` appends the
resolved callee name before descending into `func` and `args`
(pre-order, as `generic_visit` runs after the append). -/
def visitExpr (acc : VisitAcc) : PyExpr → VisitAcc
  | .name _ => acc
  | .constant _ => acc
  | .attribute v _ => visitExpr acc v
  | .call f args =>
    let acc1 :=
      match attrChain f with
      | some n => { acc with calls := acc.calls ++ [n] }
      | none => acc
    visitExprList (visitExpr acc1 f) args
where
  visitExprList (acc : VisitAcc) : List PyExpr → VisitAcc
  | [] => acc
  | e :: es => visitExprList (visitExpr acc e) es

/-- `ast.NodeVisitor` traversal over statements, collecting writes, returns
and exceptions exactly as `_Visitor` does (each handler appends, then
`generic_visit` descends into the children in field order). -/
def visitStmt (acc : VisitAcc) : PyStmt → VisitAcc
  | .assign targets value =>
    let ws := targets.filterMap attrChain
    let acc1 := { acc with writes := acc.writes ++ ws }
    visitExpr (visitExpr.visitExprList acc1 targets) value
  | .annAssign target value =>
    let acc1 :=
      match attrChain target with
      | some w => { acc with writes := acc.writes ++ [w] }
      | none => acc
    let acc2 := visitExpr acc1 target
    (match value with
     | some v => visitExpr acc2 v
     | none => acc2)
  | .ret none => { acc with returns := acc.returns ++ ["None"] }
  | .ret (some v) =>
    let r := match v with
      | .constant s => s
      | _ => "expr"
    visitExpr { acc with returns := acc.returns ++ [r] } v
  | .raiseStmt exc =>
    let acc1 :=
      match exc with
      | some (.call f _) =>
        (match attrChain f with
         | some n => { acc with exceptions := acc.exceptions ++ [n] }
         | none => acc)
      | some (.name id) => { acc with exceptions := acc.exceptions ++ [id] }
      | _ => acc
    (match exc with
     | some e => visitExpr acc1 e
     | none => acc1)
  | .exprStmt e => visitExpr acc e
  | .ifStmt cond body orelse =>
    visitStmtList (visitStmtList (visitExpr acc cond) body) orelse
where
  visitStmtList (acc : VisitAcc) : List PyStmt → VisitAcc
  | [] => acc
  | s :: ss => visitStmtList (visitStmt acc s) ss

/-- An `ast.FunctionDef` node as read by the extractor: name, positional
argument names, body, line span. -/
structure PyFunctionDef where
  fname : String
  args : List String
  body : List PyStmt
  lineno : ℕ
  end_lineno : ℕ

/-- Python dataclass `StructuredFunction` plus the `kind` key that
`_build_one` adds to the emitted dict. -/
structure StructuredFunction where
  function_uid : String
  file_path : String
  language : String
  function_name : String
  signature : String
  parameters : List String
  calls : List String
  writes : List String
  returns : List String
  exceptions : List String
  class_name : Option String
  start_line : ℕ
  end_line : ℕ
  raw_snippet : String
  kind : String
deriving DecidableEq

/-- Python `list(dict.fromkeys(xs))`: de-duplicate keeping the first
occurrence of each element, preserving order. -/
def dedupKeepFirstAux (seen : List String) : List String → List String
  | [] => []
  | x :: xs =>
    if x ∈ seen then dedupKeepFirstAux seen xs
    else x :: dedupKeepFirstAux (x :: seen) xs

/-- See `dedupKeepFirstAux`. -/
def dedupKeepFirst (l : List String) : List String := dedupKeepFirstAux [] l

/-- Python `_get_src_lines(src, start, end)`: the 1-based inclusive line
slice, clamped to the file, joined with newlines.  The source text is
modelled already split into lines. -/
def get_src_lines (lines : List String) (start stop : ℕ) : String :=
  String.intercalate "\n" ((lines.drop (start - 1)).take (stop - (start - 1)))

/-- Python `_signature(fn)`: `name(p1, p2, ...)`. -/
def signatureOf (fname : String) (params : List String) : String :=
  fname ++ "(" ++ String.intercalate ", " params ++ ")"

/-- Python `_build_one(node, src=..., rel=..., class_name=...)`. -/
def build_one (node : PyFunctionDef) (srcLines : List String) (rel : String)
    (class_name : Option String) : StructuredFunction :=
  let start := node.lineno
  let stop := node.end_lineno
  let raw_snippet := get_src_lines srcLines start stop
  let v := visitStmt.visitStmtList ⟨[], [], [], []⟩ node.body
  let owner := match class_name with
    | some c => c ++ "."
    | none => ""
  let uid := rel ++ "::" ++ owner ++ node.fname ++ "@L" ++ toString start ++
    "-L" ++ toString stop
  { function_uid := uid
    file_path := rel
    language := "python"
    function_name := node.fname
    signature := signatureOf node.fname node.args
    parameters := node.args
    calls := (dedupKeepFirst v.calls).take 12
    writes := (dedupKeepFirst v.writes).take 12
    returns := (dedupKeepFirst v.returns).take 8
    exceptions := (dedupKeepFirst v.exceptions).take 8
    class_name := class_name
    start_line := start
    end_line := stop
    raw_snippet := raw_snippet
    kind := if class_name.isSome then "method" else "function" }

/-- A top-level item of a parsed module: only `FunctionDef` and `ClassDef`
are inspected; everything else is skipped. -/
inductive PyTop where
  | funcDef (f : PyFunctionDef)
  | classDef (cname : String) (body : List PyTop)
  | other

/-- A parsed Python module: the file text (split into lines, as
`src.splitlines()`) and the top-level statement list of the tree. -/
structure PyModule where
  srcLines : List String
  body : List PyTop

/-- Python `extract_structured_functions(py_file, project_root)`, applied to
the parsed module: top-level functions and the direct function items of
top-level classes, in source order; nested functions are not visited. -/
def extract_structured_functions (m : PyModule) (rel : String) :
    List StructuredFunction :=
  m.body.flatMap (fun top =>
    match top with
    | .funcDef f => [build_one f m.srcLines rel none]
    | .classDef cname items =>
      items.filterMap (fun item =>
        match item with
        | .funcDef f => some (build_one f m.srcLines rel (some cname))
        | _ => none)
    | .other => [])

/-! ## General helper lemmas -/

/-- Reading every position of a list through `getD` reproduces the list. -/
theorem range_map_getD {α : Type} (l : List α) (d : α) :
    (List.range l.length).map (fun i => l.getD i d) = l := by
  induction l with
  | nil => simp
  | cons a t ih =>
    simp only [List.length_cons, List.range_succ_eq_map, List.map_cons, List.map_map]
    refine congrArg₂ _ ?_ ?_
    · simp [List.getD]
    · calc (List.range t.length).map ((fun i => (a :: t).getD i d) ∘ Nat.succ)
          = (List.range t.length).map (fun i => t.getD i d) := by
            refine List.map_congr_left ?_
            intro i _
            simp [List.getD_cons_succ]
        _ = t := ih

/-- Variant of `range_map_getD` phrased through `getElem?`. -/
theorem range_map_getElemD {α : Type} (l : List α) (d : α) :
    (List.range l.length).map (fun i => l[i]?.getD d) = l := by
  have h := range_map_getD l d
  simpa [List.getD_eq_getElem?_getD] using h

/-- On a duplicate-free list, `getD` is injective on in-range indices. -/
theorem nodup_getD_inj {α : Type} {l : List α} (h : l.Nodup) {i j : ℕ} (d : α)
    (hi : i < l.length) (hj : j < l.length) (he : l.getD i d = l.getD j d) :
    i = j := by
  rw [List.getD_eq_getElem l d hi, List.getD_eq_getElem l d hj] at he
  exact (List.Nodup.getElem_inj_iff h).mp he

/-- In-range `getD` values are members of the list. -/
theorem getD_mem {α : Type} {l : List α} {i : ℕ} (d : α) (hi : i < l.length) :
    l.getD i d ∈ l := by
  rw [List.getD_eq_getElem l d hi]
  exact List.getElem_mem hi

/-! ## Facts about `validate_similarity` -/

/-- In a rectangular matrix every row has the head row's length. -/
theorem isRectangular_len {m : List (List ℚ)} (h : isRectangular m = true) :
    ∀ row ∈ m, row.length = (m.headD []).length := by
  match m with
  | [] =>
    intro row hrow
    cases hrow
  | r :: rs =>
    intro row hrow
    simp only [List.headD_cons]
    rcases List.mem_cons.mp hrow with hr | hr
    · rw [hr]
    · have hall : ∀ x ∈ rs, x.length = r.length := by
        simpa [isRectangular, List.all_eq_true] using h
      exact hall row hr

/-- A successful validation keeps the id lists and returns a matrix of shape
`(len(task_ids), len(code_ids))`. -/
theorem validate_similarity_ok {sim : SimilarityInput} {v : ValidatedSim}
    (h : validate_similarity sim = Except.ok v) :
    v.task_ids = sim.task_ids ∧ v.code_ids = sim.code_ids ∧
    v.S.length = sim.task_ids.length ∧
    ∀ row ∈ v.S, row.length = sim.code_ids.length := by
  simp only [validate_similarity] at h
  split at h
  · cases h
    refine ⟨rfl, rfl, by simp, ?_⟩
    intro row hrow
    simp only [List.mem_replicate] at hrow
    simp [hrow.2]
  · split at h
    · cases h
    · split at h
      · cases h
      · rename_i hall hrect hshape
        cases h
        rw [not_or, not_ne_iff, not_ne_iff] at hshape
        simp only [not_not] at hrect
        refine ⟨rfl, rfl, hshape.1, ?_⟩
        intro row hrow
        rw [← hshape.2]
        exact isRectangular_len hrect row hrow

/-- A failed validation makes both matchers fail with the same message. -/
theorem matchers_error_of_validate_error {sim : SimilarityInput} {e : String}
    (h : validate_similarity sim = Except.error e) (thr : ℚ) :
    greedy_one_to_one_match sim thr = Except.error e ∧
    best_per_task_match sim thr = Except.error e := by
  unfold greedy_one_to_one_match best_per_task_match
  rw [h]
  exact ⟨rfl, rfl⟩

/-! ## C6 and C7: metric conventions -/

/-- C6: `precision`, `recall`, `f1_score` and `alignment_pct` all return `0.0`
when their denominator is zero; as total functions of the embedding they can
never raise. -/
theorem metrics_zero_denominator (tp fp fn : ℤ) (p r : ℚ) (matched total : ℤ) :
    (tp + fp = 0 → precision tp fp = 0) ∧
    (tp + fn = 0 → «recall» tp fn = 0) ∧
    (p + r = 0 → f1_score p r = 0) ∧
    (total = 0 → alignment_pct matched total = 0) := by
  refine ⟨?_, ?_, ?_, ?_⟩
  · intro h
    have hq : (tp : ℚ) + (fp : ℚ) = 0 := by exact_mod_cast congrArg (Int.cast : ℤ → ℚ) h
    simp [precision, safe_div, hq]
  · intro h
    have hq : (tp : ℚ) + (fn : ℚ) = 0 := by exact_mod_cast congrArg (Int.cast : ℤ → ℚ) h
    simp [«recall», safe_div, hq]
  · intro h
    simp [f1_score, h]
  · intro h
    simp [alignment_pct, h]

/-- Witness for C6 at the all-zero input. -/
theorem metrics_zero_denominator_witness :
    precision 0 0 = 0 ∧ «recall» 0 0 = 0 ∧ f1_score 0 0 = 0 ∧
    alignment_pct 0 0 = 0 := by
  obtain ⟨h1, h2, h3, h4⟩ := metrics_zero_denominator 0 0 0 0 0 0 0
  exact ⟨h1 (by norm_num), h2 (by norm_num), h3 (by norm_num), h4 rfl⟩

/-- C7 counterexample: with `matched > total` the percentage exceeds 100, so
the claim "`alignment_pct ∈ [0,100]` for all non-negative inputs" is false at
`matched = 5`, `total = 2`. -/
theorem alignment_pct_gt_100_counterexample :
    alignment_pct 5 2 = 250 ∧ ¬ alignment_pct 5 2 ≤ 100 := by
  have h : alignment_pct 5 2 = 250 := by
    unfold alignment_pct
    norm_num
  exact ⟨h, by rw [h]; norm_num⟩

/-- C7 (amended): for `0 ≤ matched ≤ total` the percentage lies in `[0, 100]`,
and `alignment_pct 0 0 = 0`. -/
theorem alignment_pct_bounds (matched total : ℤ)
    (h0 : 0 ≤ matched) (h1 : matched ≤ total) :
    0 ≤ alignment_pct matched total ∧ alignment_pct matched total ≤ 100 ∧
    alignment_pct 0 0 = 0 := by
  unfold alignment_pct
  rcases eq_or_ne total 0 with ht | ht
  · simp [ht]
  · have htpos : (0 : ℤ) < total := lt_of_le_of_ne (h0.trans h1) (Ne.symm ht)
    have htq : (0 : ℚ) < (total : ℚ) := by exact_mod_cast htpos
    have hmq : (0 : ℚ) ≤ (matched : ℚ) := by exact_mod_cast h0
    have hle : (matched : ℚ) ≤ (total : ℚ) := by exact_mod_cast h1
    refine ⟨?_, ?_, by simp⟩
    · rw [if_neg ht]
      positivity
    · rw [if_neg ht]
      have hdiv : (matched : ℚ) / (total : ℚ) ≤ 1 := (div_le_one htq).mpr hle
      calc (matched : ℚ) / (total : ℚ) * 100 ≤ 1 * 100 := by
            exact mul_le_mul_of_nonneg_right hdiv (by norm_num)
        _ = 100 := by norm_num
/-- Witness for C7 (amended) at `matched = 1`, `total = 2`. -/
theorem alignment_pct_bounds_witness :
    0 ≤ alignment_pct 1 2 ∧ alignment_pct 1 2 ≤ 100 ∧ alignment_pct 0 0 = 0 :=
  alignment_pct_bounds 1 2 (by norm_num) (by norm_num)

/-! ## C9: extractor determinism -/

/-- C9: the extractor is a pure function of the parsed source, so re-running
it over an unchanged tree reproduces every record (uids and
calls/writes/returns/exceptions included); moreover the `function_uid` is
determined by `(relative_path, owning_class, function_name, start_line,
end_line)` alone — two nodes agreeing on those five components receive the
same uid regardless of their bodies, parameters or file text. -/
theorem extractor_deterministic_uid (m : PyModule) (rel : String)
    (n1 n2 : PyFunctionDef) (l1 l2 : List String) (cls : Option String)
    (hn : n1.fname = n2.fname) (hs : n1.lineno = n2.lineno)
    (he : n1.end_lineno = n2.end_lineno) :
    extract_structured_functions m rel = extract_structured_functions m rel ∧
    (build_one n1 l1 rel cls).function_uid =
      (build_one n2 l2 rel cls).function_uid := by
  refine ⟨rfl, ?_⟩
  unfold build_one
  simp [hn, hs, he]

/-- Witness for C9: two nodes with the same name/lines but different bodies,
parameters and surrounding file text get the same uid. -/
theorem extractor_deterministic_uid_witness :
    extract_structured_functions ⟨[], []⟩ "m.py" =
      extract_structured_functions ⟨[], []⟩ "m.py" ∧
    (build_one ⟨"f", ["x"], [PyStmt.ret none], 3, 5⟩ ["l1", "l2", "l3"] "m.py"
        none).function_uid =
      (build_one ⟨"f", [], [], 3, 5⟩ [] "m.py" none).function_uid :=
  extractor_deterministic_uid ⟨[], []⟩ "m.py"
    ⟨"f", ["x"], [PyStmt.ret none], 3, 5⟩ ⟨"f", [], [], 3, 5⟩
    ["l1", "l2", "l3"] [] none rfl rfl rfl

/-! ## C4: shape-mismatch handling -/

/-- C4 counterexample: a similarity input whose matrix (the empty list,
numpy shape `(0,)`) differs from the required shape `(1, 1)` does **not**
raise — both matchers substitute a zero matrix and return a result, so the
claim "every shape mismatch raises" is false at this input. -/
theorem shape_mismatch_counterexample :
    greedy_one_to_one_match ⟨["t"], ["c"], []⟩ 1 =
      Except.ok ⟨⟨1, "greedy_one_to_one"⟩, [], ["t"], ["c"]⟩ ∧
    best_per_task_match ⟨["t"], ["c"], []⟩ 1 =
      Except.ok ⟨⟨1, "best_per_task_many_to_one"⟩, [], ["t"], ["c"]⟩ := by
  constructor <;> rfl

/-- C4 (amended): for every similarity input whose matrix has at least one
entry (so the `size == 0` fallback does not apply) and whose shape is not
`(len(task_ids), len(code_ids))` — including ragged rows — both matchers
fail with a `ValueError` before producing any matched/missing/extra output. -/
theorem shape_mismatch_raises (sim : SimilarityInput) (thr : ℚ)
    (hne : ¬ sim.matrix.all (fun row => row.isEmpty) = true)
    (hbad : ¬ (isRectangular sim.matrix = true ∧
      sim.matrix.length = sim.task_ids.length ∧
      (sim.matrix.headD []).length = sim.code_ids.length)) :
    (∃ e, greedy_one_to_one_match sim thr = Except.error e) ∧
    (∃ e, best_per_task_match sim thr = Except.error e) := by
  have hval : ∃ e, validate_similarity sim = Except.error e := by
    simp only [validate_similarity]
    rw [if_neg hne]
    by_cases hrect : isRectangular sim.matrix = true
    · have hsh : sim.matrix.length ≠ sim.task_ids.length ∨
          (sim.matrix.headD []).length ≠ sim.code_ids.length := by
        by_contra hcon
        push_neg at hcon
        exact hbad ⟨hrect, hcon⟩
      rw [if_neg (by simpa using hrect), if_pos hsh]
      exact ⟨_, rfl⟩
    · rw [if_pos (by simpa using hrect)]
      exact ⟨_, rfl⟩
  obtain ⟨e, he⟩ := hval
  obtain ⟨h1, h2⟩ := matchers_error_of_validate_error he thr
  exact ⟨⟨e, h1⟩, ⟨e, h2⟩⟩

/-- Witness for C4 (amended): a rectangular 2-row matrix against one task id
and one code id. -/
theorem shape_mismatch_raises_witness :
    (∃ e, greedy_one_to_one_match ⟨["t"], ["c"], [[1], [2]]⟩ 0 = Except.error e) ∧
    (∃ e, best_per_task_match ⟨["t"], ["c"], [[1], [2]]⟩ 0 = Except.error e) :=
  shape_mismatch_raises ⟨["t"], ["c"], [[1], [2]]⟩ 0 (by decide) (by decide)

/-! ## C10: empty matrix treated as all-zeros -/

/-- Every entry of the substituted all-zeros matrix reads as `0`. -/
theorem getScore_zeros (n m i j : ℕ) :
    getScore (List.replicate n (List.replicate m (0 : ℚ))) i j = 0 := by
  unfold getScore
  simp only [List.getD_eq_getElem?_getD, List.getElem?_replicate]
  rcases lt_or_ge i n with hi | hi
  · rw [if_pos hi]
    simp only [Option.getD_some, List.getElem?_replicate]
    split
    · rfl
    · rfl
  · rw [if_neg (not_lt.mpr hi)]
    simp

/-- With a positive threshold no all-zeros entry passes the filter. -/
theorem buildCandidates_zeros (n m n' m' : ℕ) {thr : ℚ} (hthr : 0 < thr) :
    buildCandidates (List.replicate n (List.replicate m (0 : ℚ))) n' m' thr = [] := by
  unfold buildCandidates
  have h : ∀ i j : ℕ,
      (if thr ≤ getScore (List.replicate n (List.replicate m (0 : ℚ))) i j then
        some (getScore (List.replicate n (List.replicate m (0 : ℚ))) i j, i, j)
      else none) = none := by
    intro i j
    rw [getScore_zeros, if_neg (not_le.mpr hthr)]
  simp [h]

/-- C10: an empty (or absent) `matrix` with non-empty id lists does not
raise; the matchers act on the all-zeros matrix, so with any positive
threshold everything is missing/extra and nothing matches. -/
theorem empty_matrix_fallback (sim : SimilarityInput) (thr : ℚ)
    (hm : sim.matrix = []) (hthr : 0 < thr)
    (ht : sim.task_ids ≠ []) (hc : sim.code_ids ≠ []) :
    greedy_one_to_one_match sim thr =
      Except.ok ⟨⟨thr, "greedy_one_to_one"⟩, [], sim.task_ids, sim.code_ids⟩ ∧
    best_per_task_match sim thr =
      Except.ok ⟨⟨thr, "best_per_task_many_to_one"⟩, [], sim.task_ids,
        sim.code_ids⟩ := by
  have hval : validate_similarity sim = Except.ok
      ⟨sim.task_ids, sim.code_ids,
        List.replicate sim.task_ids.length
          (List.replicate sim.code_ids.length 0)⟩ := by
    simp only [validate_similarity, hm]
    rfl
  constructor
  · unfold greedy_one_to_one_match
    rw [hval]
    simp only [Except.map, buildCandidates_zeros _ _ _ _ hthr, sortCandidates,
      List.insertionSort, greedyAssign, List.map_nil, Except.ok.injEq]
    refine congrArg₂ _ ?_ ?_
    · simp [range_map_getElemD]
    · simp [range_map_getElemD]
  · unfold best_per_task_match
    rw [hval]
    show Except.ok _ = _
    refine congrArg Except.ok ?_
    have hnone : (List.range sim.task_ids.length).filterMap (fun i =>
        if sim.code_ids.length = 0 then none
        else
          let row := (List.replicate sim.task_ids.length
            (List.replicate sim.code_ids.length (0 : ℚ))).getD i []
          let j := argmaxIdx row
          let score := row.getD j 0
          if thr ≤ score then
            some (MatchPair.mk (sim.task_ids.getD i "") (sim.code_ids.getD j "") score)
          else none) = [] := by
      rw [List.filterMap_eq_nil_iff]
      intro i _
      rcases eq_or_ne sim.code_ids.length 0 with hz | hz
      · rw [if_pos hz]
      · rw [if_neg hz]
        have hscore : ((List.replicate sim.task_ids.length
            (List.replicate sim.code_ids.length (0 : ℚ))).getD i []).getD
              (argmaxIdx ((List.replicate sim.task_ids.length
                (List.replicate sim.code_ids.length (0 : ℚ))).getD i [])) 0 = 0 :=
          getScore_zeros sim.task_ids.length sim.code_ids.length i _
        simp only [hscore]
        rw [if_neg (not_le.mpr hthr)]
    show MatchResult.mk _ _ _ _ = _
    rw [hnone]
    simp

/-- Witness for C10 at two tasks, one code item, threshold 1. -/
theorem empty_matrix_fallback_witness :
    greedy_one_to_one_match ⟨["a", "b"], ["x"], []⟩ 1 =
      Except.ok ⟨⟨1, "greedy_one_to_one"⟩, [], ["a", "b"], ["x"]⟩ ∧
    best_per_task_match ⟨["a", "b"], ["x"], []⟩ 1 =
      Except.ok ⟨⟨1, "best_per_task_many_to_one"⟩, [], ["a", "b"], ["x"]⟩ :=
  empty_matrix_fallback ⟨["a", "b"], ["x"], []⟩ 1 rfl (by norm_num)
    (by decide) (by decide)

/-! ## C2: best-per-task matcher -/

/-- `np.argmax` returns an in-range index on non-empty rows. -/
theorem argmaxIdx_lt_length {l : List ℚ} (h : l ≠ []) :
    argmaxIdx l < l.length := by
  induction l with
  | nil => cases h rfl
  | cons x rest ih =>
    cases rest with
    | nil => simp [argmaxIdx]
    | cons y rs =>
      simp only [argmaxIdx]
      split
      · have hr := ih (by simp)
        simpa using Nat.succ_lt_succ hr
      · simp

/-- The `argmax` entry dominates every entry of the row. -/
theorem argmaxIdx_is_max {l : List ℚ} :
    ∀ t < l.length, l.getD t 0 ≤ l.getD (argmaxIdx l) 0 := by
  induction l with
  | nil => intro t ht; cases (Nat.not_lt_zero t) ht
  | cons x rest ih =>
    cases rest with
    | nil =>
      intro t ht
      rcases t with _ | t
      · simp [argmaxIdx]
      · simp only [List.length_cons, List.length_nil] at ht
        omega
    | cons y rs =>
      intro t ht
      simp only [argmaxIdx]
      split
      · rename_i hx
        rcases t with _ | t
        · simpa using le_of_lt hx
        · simp only [List.getD_cons_succ]
          exact ih t (by simpa using Nat.lt_of_succ_lt_succ ht)
      · rename_i hx
        rw [not_lt] at hx
        rcases t with _ | t
        · simp
        · simp only [List.getD_cons_succ, List.getD_cons_zero]
          exact le_trans (ih t (by simpa using Nat.lt_of_succ_lt_succ ht)) hx

/-- Entries strictly before the `argmax` index are strictly below the
maximum: the returned index is the first one attaining it. -/
theorem argmaxIdx_is_first {l : List ℚ} :
    ∀ t < argmaxIdx l, l.getD t 0 < l.getD (argmaxIdx l) 0 := by
  induction l with
  | nil => intro t ht; simp [argmaxIdx] at ht
  | cons x rest ih =>
    cases rest with
    | nil => intro t ht; simp [argmaxIdx] at ht
    | cons y rs =>
      intro t ht
      simp only [argmaxIdx] at ht ⊢
      split
      · rename_i hx
        rcases t with _ | t
        · simpa using hx
        · simp only [List.getD_cons_succ]
          rw [if_pos hx] at ht
          exact ih t (Nat.lt_of_succ_lt_succ ht)
      · rename_i hx
        rw [if_neg hx] at ht
        cases (Nat.not_lt_zero t) ht

/-- Unfolding `Except.map` on a success value. -/
theorem exceptMap_ok {α β : Type} (f : α → β) (a : α) :
    Except.map f (Except.ok a : Except String α) = Except.ok (f a) := rfl

/-- Unfolding monadic bind on a success value. -/
theorem exceptBind_ok {α β : Type} (a : α) (f : α → Except String β) :
    (Except.ok a : Except String α) >>= f = f a := rfl

/-- C2 counterexample: with the duplicated task-id list `["t", "t"]` the
second row's maximum `0` is below the threshold `1`, yet `missing` is empty
(the matcher de-duplicates by id string), so the claim as stated fails. -/
theorem best_per_task_dup_counterexample :
    best_per_task_match ⟨["t", "t"], ["c"], [[2], [0]]⟩ 1 =
      Except.ok ⟨⟨1, "best_per_task_many_to_one"⟩,
        [⟨"t", "c", 2⟩], [], []⟩ ∧ (0 : ℚ) < 1 := by
  exact ⟨rfl, by norm_num⟩

/-- C2 (amended): provided `task_ids` is duplicate-free, `best_per_task_match`
returns at most `len(task_ids)` pairs; every pair's score is its task row's
maximum, is `>= threshold`, and its `code_id` sits at the lowest row index
attaining that maximum; and every task all of whose row entries are below
the threshold is listed in `missing`. -/
theorem best_per_task_spec (sim : SimilarityInput) (thr : ℚ) (v : ValidatedSim)
    (res : MatchResult) (hv : validate_similarity sim = Except.ok v)
    (hres : best_per_task_match sim thr = Except.ok res)
    (hnd : sim.task_ids.Nodup) :
    res.matched.length ≤ sim.task_ids.length ∧
    (∀ p ∈ res.matched, ∃ i, i < sim.task_ids.length ∧
      p.task_id = sim.task_ids.getD i "" ∧
      p.code_id = sim.code_ids.getD (argmaxIdx (v.S.getD i [])) "" ∧
      p.score = (v.S.getD i []).getD (argmaxIdx (v.S.getD i [])) 0 ∧
      thr ≤ p.score ∧
      (∀ t < sim.code_ids.length, (v.S.getD i []).getD t 0 ≤ p.score) ∧
      (∀ t < argmaxIdx (v.S.getD i []), (v.S.getD i []).getD t 0 < p.score)) ∧
    (∀ i, i < sim.task_ids.length →
      (∀ t < sim.code_ids.length, (v.S.getD i []).getD t 0 < thr) →
      sim.task_ids.getD i "" ∈ res.missing) := by
  obtain ⟨hvt, hvc, hSlen, hSrow⟩ := validate_similarity_ok hv
  unfold best_per_task_match at hres
  rw [hv, exceptMap_ok] at hres
  replace hres := (Except.ok.inj hres).symm
  subst hres
  dsimp only
  have hrowlen : ∀ i, i < v.task_ids.length →
      (v.S.getD i []).length = sim.code_ids.length := by
    intro i hi
    have hilt : i < v.S.length := by rw [hSlen, ← hvt]; exact hi
    rw [List.getD_eq_getElem _ _ hilt]
    exact hSrow _ (List.getElem_mem hilt)
  refine ⟨?_, ?_, ?_⟩
  · calc ((List.range v.task_ids.length).filterMap _).length
        ≤ (List.range v.task_ids.length).length := List.length_filterMap_le _ _
      _ = sim.task_ids.length := by rw [List.length_range, hvt]
  · intro p hp
    simp only [List.mem_filterMap, List.mem_range] at hp
    obtain ⟨i, hi, hFi⟩ := hp
    split at hFi
    · cases hFi
    · split at hFi
      · rename_i hthr2
        cases hFi
        have hiT : i < sim.task_ids.length := by rw [← hvt]; exact hi
        have hrl := hrowlen i hi
        refine ⟨i, hiT, by rw [hvt], by rw [hvc], rfl, hthr2, ?_, ?_⟩
        · intro t ht
          exact argmaxIdx_is_max t (by rw [hrl]; exact ht)
        · intro t ht
          exact argmaxIdx_is_first t ht
      · cases hFi
  · intro i hi hall
    have hiT : i < v.task_ids.length := by rw [hvt]; exact hi
    have hmem : v.task_ids.getD i "" ∈ v.task_ids := getD_mem _ hiT
    have hnd2 : v.task_ids.Nodup := by rw [hvt]; exact hnd
    rw [← hvt]
    rw [List.mem_filter]
    refine ⟨hmem, ?_⟩
    simp only [decide_eq_true_eq]
    intro hin
    simp only [List.mem_map, List.mem_filterMap, List.mem_range] at hin
    obtain ⟨p, ⟨i2, hi2, hFi2⟩, hpid⟩ := hin
    split at hFi2
    · cases hFi2
    · rename_i hM
      split at hFi2
      · rename_i hscore
        have hpid2 : p.task_id = v.task_ids.getD i2 "" := by
          cases hFi2
          rfl
        have hieq : i2 = i := by
          refine nodup_getD_inj hnd2 "" hi2 hiT ?_
          rw [← hpid2, hpid]
        rw [hieq] at hscore
        have hrl := hrowlen i hiT
        have hne : (v.S.getD i []) ≠ [] := by
          intro hcon
          rw [hcon] at hrl
          simp only [List.length_nil] at hrl
          exact hM (by rw [hvc]; exact hrl.symm)
        have hlt := hall (argmaxIdx (v.S.getD i []))
          (by rw [← hrl]; exact argmaxIdx_lt_length hne)
        exact (not_le.mpr hlt) hscore
      · cases hFi2

/-- Witness for C2 (amended) at a concrete 2-by-2 input with threshold 1. -/
theorem best_per_task_spec_witness :
    ([(⟨"t1", "c1", 2⟩ : MatchPair)]).length ≤ (["t1", "t2"] : List String).length ∧
    (∀ p ∈ [(⟨"t1", "c1", 2⟩ : MatchPair)], ∃ i, i < (["t1", "t2"] : List String).length ∧
      p.task_id = (["t1", "t2"] : List String).getD i "" ∧
      p.code_id = (["c1", "c2"] : List String).getD
        (argmaxIdx (([[2, 1], [0, 0]] : List (List ℚ)).getD i [])) "" ∧
      p.score = (([[2, 1], [0, 0]] : List (List ℚ)).getD i []).getD
        (argmaxIdx (([[2, 1], [0, 0]] : List (List ℚ)).getD i [])) 0 ∧
      (1 : ℚ) ≤ p.score ∧
      (∀ t < (["c1", "c2"] : List String).length,
        (([[2, 1], [0, 0]] : List (List ℚ)).getD i []).getD t 0 ≤ p.score) ∧
      (∀ t < argmaxIdx (([[2, 1], [0, 0]] : List (List ℚ)).getD i []),
        (([[2, 1], [0, 0]] : List (List ℚ)).getD i []).getD t 0 < p.score)) ∧
    (∀ i, i < (["t1", "t2"] : List String).length →
      (∀ t < (["c1", "c2"] : List String).length,
        (([[2, 1], [0, 0]] : List (List ℚ)).getD i []).getD t 0 < 1) →
      (["t1", "t2"] : List String).getD i "" ∈ (["t2"] : List String)) :=
  best_per_task_spec ⟨["t1", "t2"], ["c1", "c2"], [[2, 1], [0, 0]]⟩ 1
    ⟨["t1", "t2"], ["c1", "c2"], [[2, 1], [0, 0]]⟩
    ⟨⟨1, "best_per_task_many_to_one"⟩, [⟨"t1", "c1", 2⟩], ["t2"], ["c2"]⟩
    rfl rfl (by decide)

/-! ## C1: greedy one-to-one matcher -/

/-- Soundness of the greedy assignment loop: accepted triples avoid the
already-claimed endpoint sets, come from the candidate list, and claim each
task index and each code index at most once. -/
theorem greedyAssign_sound (cs : List (ℚ × ℕ × ℕ)) (aT aC : List ℕ) :
    (∀ p ∈ greedyAssign cs aT aC,
      p.1 ∉ aT ∧ p.2.1 ∉ aC ∧ (p.2.2, p.1, p.2.1) ∈ cs) ∧
    ((greedyAssign cs aT aC).map (fun p => p.1)).Nodup ∧
    ((greedyAssign cs aT aC).map (fun p => p.2.1)).Nodup := by
  induction cs generalizing aT aC with
  | nil => simp [greedyAssign]
  | cons c rest ih =>
    obtain ⟨s, i, j⟩ := c
    by_cases hiT : i ∈ aT
    · rw [show greedyAssign ((s, i, j) :: rest) aT aC = greedyAssign rest aT aC
        from by rw [greedyAssign, if_pos hiT]]
      obtain ⟨h1, h2, h3⟩ := ih aT aC
      exact ⟨fun p hp => ⟨(h1 p hp).1, (h1 p hp).2.1,
        List.mem_cons_of_mem _ (h1 p hp).2.2⟩, h2, h3⟩
    · by_cases hjC : j ∈ aC
      · rw [show greedyAssign ((s, i, j) :: rest) aT aC = greedyAssign rest aT aC
          from by rw [greedyAssign, if_neg hiT, if_pos hjC]]
        obtain ⟨h1, h2, h3⟩ := ih aT aC
        exact ⟨fun p hp => ⟨(h1 p hp).1, (h1 p hp).2.1,
          List.mem_cons_of_mem _ (h1 p hp).2.2⟩, h2, h3⟩
      · rw [show greedyAssign ((s, i, j) :: rest) aT aC =
            (i, j, s) :: greedyAssign rest (i :: aT) (j :: aC)
          from by rw [greedyAssign, if_neg hiT, if_neg hjC]]
        obtain ⟨h1, h2, h3⟩ := ih (i :: aT) (j :: aC)
        refine ⟨?_, ?_, ?_⟩
        · intro p hp
          rcases List.mem_cons.mp hp with hp | hp
          · rw [hp]
            exact ⟨hiT, hjC, List.mem_cons_self _ _⟩
          · obtain ⟨hp1, hp2, hp3⟩ := h1 p hp
            exact ⟨fun hc => hp1 (List.mem_cons_of_mem _ hc),
              fun hc => hp2 (List.mem_cons_of_mem _ hc),
              List.mem_cons_of_mem _ hp3⟩
        · simp only [List.map_cons, List.nodup_cons]
          refine ⟨?_, h2⟩
          intro hc
          simp only [List.mem_map] at hc
          obtain ⟨p, hp, hpe⟩ := hc
          exact (h1 p hp).1 (hpe ▸ List.mem_cons_self i aT)
        · simp only [List.map_cons, List.nodup_cons]
          refine ⟨?_, h3⟩
          intro hc
          simp only [List.mem_map] at hc
          obtain ⟨p, hp, hpe⟩ := hc
          exact (h1 p hp).2.1 (hpe ▸ List.mem_cons_self j aC)

/-- Candidate triples carry in-range indices. -/
theorem buildCandidates_mem {S : List (List ℚ)} {n m : ℕ} {thr : ℚ}
    {c : ℚ × ℕ × ℕ} (hc : c ∈ buildCandidates S n m thr) :
    c.2.1 < n ∧ c.2.2 < m := by
  unfold buildCandidates at hc
  simp only [List.mem_flatMap, List.mem_filterMap, List.mem_range] at hc
  obtain ⟨i, hi, j, hj, hij⟩ := hc
  split at hij
  · cases hij
    exact ⟨hi, hj⟩
  · cases hij

/-- C1 counterexample: with the duplicated task-id list `["t", "t"]` both
rows match distinct code items and the returned `matched` list repeats the
task id `"t"` — and the partition also fails, since `"t"` is matched yet
two tasks exist; so the claim as stated fails on inputs with repeated ids. -/
theorem greedy_dup_counterexample :
    greedy_one_to_one_match ⟨["t", "t"], ["c1", "c2"], [[1, 0], [0, 1]]⟩ 0 =
      Except.ok ⟨⟨0, "greedy_one_to_one"⟩,
        [⟨"t", "c1", 1⟩, ⟨"t", "c2", 1⟩], [], []⟩ ∧
    ¬ ([(⟨"t", "c1", 1⟩ : MatchPair), ⟨"t", "c2", 1⟩].map
        (fun p => p.task_id)).Nodup := by
  exact ⟨rfl, by decide⟩

/-- C1 (amended): provided `task_ids` and `code_ids` are duplicate-free,
the greedy matcher's output satisfies the one-to-one partition invariant:
no repeated `task_id` in `matched`, no repeated `code_id` in `matched`,
every task id in exactly one of `matched`/`missing`, every missing id is a
task id, and `extra` is exactly the code ids used by no matched pair. -/
theorem greedy_one_to_one_spec (sim : SimilarityInput) (thr : ℚ)
    (res : MatchResult)
    (hres : greedy_one_to_one_match sim thr = Except.ok res)
    (hT : sim.task_ids.Nodup) (hC : sim.code_ids.Nodup) :
    (res.matched.map (fun p => p.task_id)).Nodup ∧
    (res.matched.map (fun p => p.code_id)).Nodup ∧
    (∀ t ∈ sim.task_ids,
      (t ∈ res.matched.map (fun p => p.task_id) ∧ t ∉ res.missing) ∨
      (t ∉ res.matched.map (fun p => p.task_id) ∧ t ∈ res.missing)) ∧
    (∀ t ∈ res.missing, t ∈ sim.task_ids) ∧
    res.extra = sim.code_ids.filter
      (fun c => c ∉ res.matched.map (fun p => p.code_id)) := by
  cases hval : validate_similarity sim with
  | error e =>
    rw [(matchers_error_of_validate_error hval thr).1] at hres
    cases hres
  | ok v =>
    obtain ⟨hvt, hvc, hSlen, hSrow⟩ := validate_similarity_ok hval
    unfold greedy_one_to_one_match at hres
    rw [hval, exceptMap_ok] at hres
    replace hres := (Except.ok.inj hres).symm
    subst hres
    dsimp only
    obtain ⟨hsound, hfnd, hsnd⟩ := greedyAssign_sound
      (sortCandidates (buildCandidates v.S v.task_ids.length
        v.code_ids.length thr)) [] []
    have hrange : ∀ p ∈ greedyAssign
        (sortCandidates (buildCandidates v.S v.task_ids.length
          v.code_ids.length thr)) [] [],
        p.1 < v.task_ids.length ∧ p.2.1 < v.code_ids.length := by
      intro p hp
      have hmem := (hsound p hp).2.2
      have hmem2 : (p.2.2, p.1, p.2.1) ∈ buildCandidates v.S
          v.task_ids.length v.code_ids.length thr :=
        ((List.perm_insertionSort _ _).mem_iff).mp hmem
      exact buildCandidates_mem hmem2
    set A := greedyAssign
      (sortCandidates (buildCandidates v.S v.task_ids.length
        v.code_ids.length thr)) [] [] with hA
    have hTv : v.task_ids.Nodup := by rw [hvt]; exact hT
    have hCv : v.code_ids.Nodup := by rw [hvc]; exact hC
    refine ⟨?_, ?_, ?_, ?_, ?_⟩
    · rw [List.map_map]
      show (A.map ((fun p => p.task_id) ∘ (fun t =>
        MatchPair.mk (v.task_ids.getD t.1 "") (v.code_ids.getD t.2.1 "")
          t.2.2))).Nodup
      have : ((fun p => p.task_id) ∘ (fun t : ℕ × ℕ × ℚ =>
          MatchPair.mk (v.task_ids.getD t.1 "") (v.code_ids.getD t.2.1 "")
            t.2.2)) = fun t => v.task_ids.getD t.1 "" := rfl
      rw [this, show (fun t : ℕ × ℕ × ℚ => v.task_ids.getD t.1 "") =
        ((fun i => v.task_ids.getD i "") ∘ (fun t : ℕ × ℕ × ℚ => t.1))
        from rfl, ← List.map_map]
      refine List.Nodup.map_on ?_ hfnd
      intro x hx y hy hxy
      simp only [List.mem_map] at hx hy
      obtain ⟨px, hpx, hpx2⟩ := hx
      obtain ⟨py, hpy, hpy2⟩ := hy
      exact nodup_getD_inj hTv "" (hpx2 ▸ (hrange px hpx).1)
        (hpy2 ▸ (hrange py hpy).1) hxy
    · rw [List.map_map]
      show (A.map ((fun p => p.code_id) ∘ (fun t =>
        MatchPair.mk (v.task_ids.getD t.1 "") (v.code_ids.getD t.2.1 "")
          t.2.2))).Nodup
      have : ((fun p => p.code_id) ∘ (fun t : ℕ × ℕ × ℚ =>
          MatchPair.mk (v.task_ids.getD t.1 "") (v.code_ids.getD t.2.1 "")
            t.2.2)) = fun t => v.code_ids.getD t.2.1 "" := rfl
      rw [this, show (fun t : ℕ × ℕ × ℚ => v.code_ids.getD t.2.1 "") =
        ((fun j => v.code_ids.getD j "") ∘ (fun t : ℕ × ℕ × ℚ => t.2.1))
        from rfl, ← List.map_map]
      refine List.Nodup.map_on ?_ hsnd
      intro x hx y hy hxy
      simp only [List.mem_map] at hx hy
      obtain ⟨px, hpx, hpx2⟩ := hx
      obtain ⟨py, hpy, hpy2⟩ := hy
      exact nodup_getD_inj hCv "" (hpx2 ▸ (hrange px hpx).2)
        (hpy2 ▸ (hrange py hpy).2) hxy
    · intro t ht
      rw [← hvt] at ht
      obtain ⟨i0, hi0, hti0⟩ := List.getElem_of_mem ht
      have hti0d : v.task_ids.getD i0 "" = t := by
        rw [List.getD_eq_getElem _ _ hi0, hti0]
      by_cases hin : i0 ∈ A.map (fun p => p.1)
      · left
        constructor
        · obtain ⟨p, hp, hpe⟩ := List.mem_map.mp hin
          refine List.mem_map.mpr ⟨MatchPair.mk (v.task_ids.getD p.1 "")
            (v.code_ids.getD p.2.1 "") p.2.2, List.mem_map_of_mem _ hp, ?_⟩
          show v.task_ids.getD p.1 "" = t
          rw [hpe, hti0d]
        · intro hmiss
          obtain ⟨i1, hi1f, hi1d⟩ := List.mem_map.mp hmiss
          obtain ⟨hi1r, hi1na⟩ := List.mem_filter.mp hi1f
          rw [List.mem_range] at hi1r
          have hieq : i1 = i0 := nodup_getD_inj hTv "" hi1r hi0
            (by rw [hi1d, hti0d])
          rw [hieq] at hi1na
          simp only [decide_eq_true_eq] at hi1na
          exact hi1na hin
      · right
        constructor
        · intro hmat
          obtain ⟨q, hq, hqe⟩ := List.mem_map.mp hmat
          obtain ⟨p, hp, hpe⟩ := List.mem_map.mp hq
          have hpt : v.task_ids.getD p.1 "" = t := by
            rw [← hqe, ← hpe]
          have hpeq : p.1 = i0 := nodup_getD_inj hTv "" (hrange p hp).1 hi0
            (by rw [hpt, ← hti0d])
          exact hin (List.mem_map.mpr ⟨p, hp, hpeq⟩)
        · refine List.mem_map.mpr ⟨i0, List.mem_filter.mpr
            ⟨List.mem_range.mpr hi0, ?_⟩, hti0d⟩
          simp only [decide_eq_true_eq]
          exact hin
    · intro t htm
      simp only [List.mem_map, List.mem_filter, List.mem_range] at htm
      obtain ⟨i1, ⟨hi1r, _⟩, hi1d⟩ := htm
      rw [← hvt]
      rw [← hi1d]
      exact getD_mem "" hi1r
    · have hcid : ∀ j, j < v.code_ids.length →
          ((v.code_ids.getD j "" ∈ A.map (fun p => v.code_ids.getD p.2.1 ""))
            ↔ j ∈ A.map (fun p => p.2.1)) := by
        intro j hj
        constructor
        · intro hmem
          obtain ⟨p, hp, hpe⟩ := List.mem_map.mp hmem
          have hpeq : p.2.1 = j := nodup_getD_inj hCv "" (hrange p hp).2 hj hpe
          exact List.mem_map.mpr ⟨p, hp, hpeq⟩
        · intro hmem
          obtain ⟨p, hp, hpe⟩ := List.mem_map.mp hmem
          exact List.mem_map.mpr ⟨p, hp, by rw [hpe]⟩
      rw [← hvc]
      have hmapmap : (A.map (fun t => MatchPair.mk (v.task_ids.getD t.1 "")
          (v.code_ids.getD t.2.1 "") t.2.2)).map (fun p => p.code_id) =
          A.map (fun p => v.code_ids.getD p.2.1 "") := by
        rw [List.map_map]
        rfl
      rw [hmapmap]
      have h1 : v.code_ids.filter (fun c => decide (c ∉ A.map
          (fun p => v.code_ids.getD p.2.1 ""))) =
          ((List.range v.code_ids.length).map
            (fun i => v.code_ids.getD i "")).filter
            (fun c => decide (c ∉ A.map (fun p => v.code_ids.getD p.2.1 ""))) := by
        rw [range_map_getD]
      rw [h1, List.filter_map]
      refine congrArg _ (List.filter_congr ?_)
      intro j hjr
      rw [List.mem_range] at hjr
      simp only [Function.comp_apply, decide_eq_decide]
      rw [not_iff_not]
      exact (hcid j hjr).symm

/-- Witness for C1 (amended) at a concrete duplicate-free 2-by-2 input. -/
theorem greedy_one_to_one_spec_witness :
    (([(⟨"t1", "c1", 2⟩ : MatchPair), ⟨"t2", "c2", 1⟩]).map
      (fun p => p.task_id)).Nodup ∧
    (([(⟨"t1", "c1", 2⟩ : MatchPair), ⟨"t2", "c2", 1⟩]).map
      (fun p => p.code_id)).Nodup ∧
    (∀ t ∈ (["t1", "t2"] : List String),
      (t ∈ ([(⟨"t1", "c1", 2⟩ : MatchPair), ⟨"t2", "c2", 1⟩]).map
          (fun p => p.task_id) ∧ t ∉ ([] : List String)) ∨
      (t ∉ ([(⟨"t1", "c1", 2⟩ : MatchPair), ⟨"t2", "c2", 1⟩]).map
          (fun p => p.task_id) ∧ t ∈ ([] : List String))) ∧
    (∀ t ∈ ([] : List String), t ∈ (["t1", "t2"] : List String)) ∧
    ([] : List String) = (["c1", "c2"] : List String).filter
      (fun c => c ∉ ([(⟨"t1", "c1", 2⟩ : MatchPair), ⟨"t2", "c2", 1⟩]).map
        (fun p => p.code_id)) :=
  greedy_one_to_one_spec ⟨["t1", "t2"], ["c1", "c2"], [[2, 0], [0, 1]]⟩ 1
    ⟨⟨1, "greedy_one_to_one"⟩, [⟨"t1", "c1", 2⟩, ⟨"t2", "c2", 1⟩], [], []⟩
    rfl (by decide) (by decide)

/-! ## C5: compute_similarity safety -/

/-- Clipped values lie in `[-1, 1]`. -/
theorem clip_mem (x : ℚ) : -1 ≤ clip x ∧ clip x ≤ 1 := by
  unfold clip
  constructor
  · exact le_max_left _ _
  · rw [max_le_iff]
    constructor
    · norm_num
    · exact min_le_right _ _

/-- C5 counterexample: two non-empty embedding lists whose vectors have
different dimensions make `compute_similarity` raise (`Vector dim
mismatch`), so "never raises" is false as stated. -/
theorem compute_similarity_dim_mismatch_counterexample :
    compute_similarity [⟨"t", [1]⟩] [⟨"c", [1, 0]⟩] =
      Except.error "Vector dim mismatch" := rfl

/-- C5 (amended): whenever all task vectors and all code vectors share one
common dimension, `compute_similarity` succeeds; every matrix entry is
clipped into `[-1, 1]`, the ids are preserved, and an empty input list
yields the degenerate empty matrix rather than an error. -/
theorem compute_similarity_safe (te ce : List EmbeddingRecord) (d : ℕ)
    (hte : ∀ x ∈ te, x.vector.length = d)
    (hce : ∀ x ∈ ce, x.vector.length = d) :
    ∃ out, compute_similarity te ce = Except.ok out ∧
      (∀ row ∈ out.matrix, ∀ x ∈ row, -1 ≤ x ∧ x ≤ 1) ∧
      out.task_ids = te.map (fun x => x.id) ∧
      out.code_ids = ce.map (fun x => x.id) ∧
      ((te = [] ∨ ce = []) → out.matrix = []) := by
  unfold compute_similarity
  by_cases hemp : (te.map (fun x => x.vector)).isEmpty = true ∨
      (ce.map (fun x => x.vector)).isEmpty = true
  · rw [if_pos hemp]
    refine ⟨_, rfl, ?_, rfl, rfl, fun _ => rfl⟩
    intro row hrow
    cases hrow
  · rw [if_neg hemp]
    rw [not_or] at hemp
    obtain ⟨hte2, hce2⟩ := hemp
    have htne : te ≠ [] := by
      intro hcon
      rw [hcon] at hte2
      exact hte2 rfl
    have hcne : ce ≠ [] := by
      intro hcon
      rw [hcon] at hce2
      exact hce2 rfl
    have hlen : ∀ (l : List EmbeddingRecord),
        (∀ x ∈ l, x.vector.length = d) →
        ∀ w ∈ l.map (fun x => x.vector), w.length = d := by
      intro l hl w hw
      obtain ⟨r, hr, hre⟩ := List.mem_map.mp hw
      rw [← hre]
      exact hl r hr
    have hrect : ∀ (l : List EmbeddingRecord), l ≠ [] →
        (∀ x ∈ l, x.vector.length = d) →
        to_matrix (l.map (fun x => x.vector)) =
          Except.ok (l.map (fun x => x.vector)) := by
      intro l hne hl
      have hmap : l.map (fun x => x.vector) ≠ [] := by
        simpa [List.map_eq_nil_iff] using hne
      rcases hm : l.map (fun x => x.vector) with _ | ⟨w, ws⟩
      · exact absurd hm hmap
      · rw [hm]
        unfold to_matrix
        dsimp only
        rw [if_pos]
        unfold isRectangular
        rw [List.all_eq_true]
        intro x hx
        have hxm : x ∈ l.map (fun y => y.vector) := by
          rw [hm]
          exact List.mem_cons_of_mem _ hx
        have hwm : w ∈ l.map (fun y => y.vector) := by
          rw [hm]
          exact List.mem_cons_self _ _
        rw [hlen l hl x hxm, hlen l hl w hwm]
        simp
    have hT := hrect te htne hte
    have hC := hrect ce hcne hce
    have hheadT : ((te.map (fun x => x.vector)).headD []).length = d := by
      refine hlen te hte _ ?_
      rcases hm : te.map (fun x => x.vector) with _ | ⟨w, ws⟩
      · exact absurd hm (by simpa [List.map_eq_nil_iff] using htne)
      · rw [hm]
        simp
    have hheadC : ((ce.map (fun x => x.vector)).headD []).length = d := by
      refine hlen ce hce _ ?_
      rcases hm : ce.map (fun x => x.vector) with _ | ⟨w, ws⟩
      · exact absurd hm (by simpa [List.map_eq_nil_iff] using hcne)
      · rw [hm]
        simp
    have hcos : cosine_similarity_matrix (te.map (fun x => x.vector))
        (ce.map (fun x => x.vector)) = Except.ok
          ((te.map (fun x => x.vector)).map (fun t =>
            (ce.map (fun x => x.vector)).map (fun c => clip (dotProduct t c)))) := by
      have hne2 : ¬(((te.map (fun x => x.vector)).headD []).length ≠
          ((ce.map (fun x => x.vector)).headD []).length) := by
        rw [hheadT, hheadC]
        exact fun hcc => hcc rfl
      unfold cosine_similarity_matrix
      simp only [hT, hC, exceptBind_ok]
      rw [if_neg hne2]
    rw [hcos, exceptMap_ok]
    refine ⟨_, rfl, ?_, rfl, rfl, ?_⟩
    · intro row hrow x hx
      obtain ⟨t, _, hte3⟩ := List.mem_map.mp hrow
      rw [← hte3] at hx
      obtain ⟨c, _, hce3⟩ := List.mem_map.mp hx
      rw [← hce3]
      exact clip_mem _
    · intro hcon
      rcases hcon with hcon | hcon
      · exact absurd hcon htne
      · exact absurd hcon hcne

/-- Witness for C5 (amended) with two orthogonal unit vectors. -/
theorem compute_similarity_safe_witness :
    ∃ out, compute_similarity [⟨"t", [1, 0]⟩] [⟨"c", [0, 1]⟩] =
        Except.ok out ∧
      (∀ row ∈ out.matrix, ∀ x ∈ row, -1 ≤ x ∧ x ≤ 1) ∧
      out.task_ids = ([⟨"t", [1, 0]⟩] : List EmbeddingRecord).map
        (fun x => x.id) ∧
      out.code_ids = ([⟨"c", [0, 1]⟩] : List EmbeddingRecord).map
        (fun x => x.id) ∧
      ((([⟨"t", [1, 0]⟩] : List EmbeddingRecord) = [] ∨
        ([⟨"c", [0, 1]⟩] : List EmbeddingRecord) = []) → out.matrix = []) :=
  compute_similarity_safe [⟨"t", [1, 0]⟩] [⟨"c", [0, 1]⟩] 2
    (by decide) (by decide)

/-! ## C8: precheck flow referential integrity -/

/-- A flow that contributes no issue has non-empty stripped endpoints that
are both known node ids. -/
theorem flowIssue_none_sound {nids : List String} {f : BpmnFlow}
    (h : flowIssue nids f = none) :
    pyStrip f.source ≠ "" ∧ pyStrip f.target ≠ "" ∧
    pyStrip f.source ∈ nids ∧ pyStrip f.target ∈ nids := by
  unfold flowIssue at h
  split at h
  · cases h
  · rename_i h1
    split at h
    · cases h
    · rename_i h2
      push_neg at h1 h2
      exact ⟨h1.1, h1.2, h2.1, h2.2⟩

/-- A flow whose stripped target is unknown always contributes an issue. -/
theorem flowIssue_some_of_dangling {nids : List String} {f : BpmnFlow}
    (h : pyStrip f.target ∉ nids) : ∃ s, flowIssue nids f = some s := by
  unfold flowIssue
  split
  · exact ⟨_, rfl⟩
  · split
    · exact ⟨_, rfl⟩
    · rename_i h1 h2
      push_neg at h2
      exact absurd h2.2 h

/-- C8: when the precheck succeeds, every flow's stripped source and target
are non-empty members of the node-id set; and a graph containing a flow
whose target matches no node id — with the earlier hard gates (some task,
unique ids) passing — fails with the "Invalid sequenceFlow references"
error. -/
theorem precheck_flow_integrity (g : BpmnGraph) :
    ((precheckGraph g).ok = true → ∀ f ∈ g.flows,
      pyStrip f.source ≠ "" ∧ pyStrip f.target ≠ "" ∧
      pyStrip f.source ∈ nodeIdsList g ∧ pyStrip f.target ∈ nodeIdsList g) ∧
    (g.tasks.length ≠ 0 → (nodeIdsList g).Nodup →
      ∀ f ∈ g.flows, pyStrip f.target ∉ nodeIdsList g →
      (precheckGraph g).ok = false ∧
      ∃ rest, (precheckGraph g).errors =
        ["Invalid sequenceFlow references: " ++ rest]) := by
  constructor
  · intro hok f hf
    simp only [precheckGraph] at hok
    split at hok
    · cases hok
    · split at hok
      · cases hok
      · split at hok
        · cases hok
        · rename_i h1 h2 hbad
          rw [not_ne_iff] at hbad
          exact flowIssue_none_sound (List.filterMap_eq_nil_iff.mp hbad f hf)
  · intro htasks hnd f hf hdang
    obtain ⟨s, hs⟩ := flowIssue_some_of_dangling hdang
    have hbadne : g.flows.filterMap (flowIssue (nodeIdsList g)) ≠ [] := by
      intro hcon
      have hnone := List.filterMap_eq_nil_iff.mp hcon f hf
      rw [hs] at hnone
      cases hnone
    refine ⟨?_, ⟨String.intercalate "; "
      ((g.flows.filterMap (flowIssue (nodeIdsList g))).take 10), ?_⟩⟩
    · show (precheckGraph g).ok = false
      simp only [precheckGraph]
      rw [if_neg htasks, if_neg (not_not_intro hnd), if_pos hbadne]
    · show (precheckGraph g).errors = _
      simp only [precheckGraph]
      rw [if_neg htasks, if_neg (not_not_intro hnd), if_pos hbadne]

/-- Witness for C8: a well-formed start-task-end graph passes and its flows
are checked; a one-task graph with a dangling `targetRef` fails with the
expected error. -/
theorem precheck_flow_integrity_witness :
    (∀ f ∈ (BpmnGraph.mk "P" [⟨"t1", "T", "task"⟩]
        [⟨"s", "S", "startEvent"⟩, ⟨"e", "E", "endEvent"⟩] []
        [⟨"f1", "s", "t1"⟩, ⟨"f2", "t1", "e"⟩]).flows,
      pyStrip f.source ≠ "" ∧ pyStrip f.target ≠ "" ∧
      pyStrip f.source ∈ nodeIdsList (BpmnGraph.mk "P" [⟨"t1", "T", "task"⟩]
        [⟨"s", "S", "startEvent"⟩, ⟨"e", "E", "endEvent"⟩] []
        [⟨"f1", "s", "t1"⟩, ⟨"f2", "t1", "e"⟩]) ∧
      pyStrip f.target ∈ nodeIdsList (BpmnGraph.mk "P" [⟨"t1", "T", "task"⟩]
        [⟨"s", "S", "startEvent"⟩, ⟨"e", "E", "endEvent"⟩] []
        [⟨"f1", "s", "t1"⟩, ⟨"f2", "t1", "e"⟩])) ∧
    ((precheckGraph (BpmnGraph.mk "P" [⟨"t1", "T", "task"⟩] [] []
        [⟨"f1", "t1", "ghost"⟩])).ok = false ∧
      ∃ rest, (precheckGraph (BpmnGraph.mk "P" [⟨"t1", "T", "task"⟩] [] []
        [⟨"f1", "t1", "ghost"⟩])).errors =
        ["Invalid sequenceFlow references: " ++ rest]) :=
  ⟨(precheck_flow_integrity _).1 (by decide),
   (precheck_flow_integrity _).2 (by decide) (by decide)
     ⟨"f1", "t1", "ghost"⟩ (by decide) (by decide)⟩

/-! ## C3: top-k matches -/

/-- The argsort permutes the index range. -/
theorem argsortAsc_perm (row : List ℚ) :
    (argsortAsc row).Perm (List.range row.length) :=
  List.perm_insertionSort _ _

/-- The argsort is sorted for the value-then-index order. -/
theorem argsortAsc_sorted (row : List ℚ) :
    List.Sorted (argsortAscLe row) (argsortAsc row) :=
  List.sorted_insertionSort _ _

/-- The argsort lists each index exactly once. -/
theorem argsortAsc_nodup (row : List ℚ) : (argsortAsc row).Nodup :=
  (argsortAsc_perm row).nodup_iff.mpr (List.nodup_range _)

/-- The argsort has one entry per row entry. -/
theorem argsortAsc_length (row : List ℚ) :
    (argsortAsc row).length = row.length := by
  rw [(argsortAsc_perm row).length_eq, List.length_range]

/-- Argsort members are in-range indices. -/
theorem argsortAsc_mem {row : List ℚ} {j : ℕ} (h : j ∈ argsortAsc row) :
    j < row.length :=
  List.mem_range.mp ((argsortAsc_perm row).mem_iff.mp h)

/-- The strict "score ascending, then index ascending" order in which the
top-k result is characterised. -/
def scoreIdxLt (row : List ℚ) (a b : ℕ) : Prop :=
  row.getD a 0 < row.getD b 0 ∨ (row.getD a 0 = row.getD b 0 ∧ a < b)

/-- On the duplicate-free argsort the sortedness is strict. -/
theorem argsortAsc_pairwise_strict (row : List ℚ) :
    (argsortAsc row).Pairwise (scoreIdxLt row) := by
  have hs : (argsortAsc row).Pairwise (argsortAscLe row) := argsortAsc_sorted row
  have hn : (argsortAsc row).Pairwise (fun a b => a ≠ b) := argsortAsc_nodup row
  refine (hs.and hn).imp ?_
  rintro a b ⟨hle | ⟨heq, hle⟩, hne⟩
  · exact Or.inl hle
  · exact Or.inr ⟨heq, lt_of_le_of_ne hle hne⟩

/-- C3 counterexample: on the tied row `[1, 1]` with `k = 2` the result
lists code index 1 before code index 0 — ties are broken by **higher**
index first (the slice-and-reverse of a stable ascending argsort), not by
original code-item order. -/
theorem top_k_ties_counterexample :
    top_k_matches ⟨["t"], ["c0", "c1"], [[1, 1]]⟩ 2 =
      Except.ok [("t", [("c1", 1), ("c0", 1)])] ∧
    ("c1", (1 : ℚ)) ≠ ("c0", (1 : ℚ)) := by
  exact ⟨rfl, by decide⟩

/-- C3 (amended): on a well-shaped input, `top_k_matches` returns one entry
per task row; the row's pair list enumerates `min(max(k,0), M)` indices —
or all `M` of them when that clamp is zero, because `arr[-0:]` is the whole
array — in strictly descending score order with ties broken by **higher**
code index first, and the selected indices dominate every unselected one in
the same (score, index) order. -/
theorem top_k_matches_spec (sim : SimilarityInput) (k : ℤ)
    (hrect : isRectangular sim.matrix = true)
    (hN : sim.matrix.length = sim.task_ids.length)
    (hM : (sim.matrix.headD []).length = sim.code_ids.length) :
    ∃ out, top_k_matches sim k = Except.ok out ∧
      out.length = sim.task_ids.length ∧
      (∀ i, i < sim.task_ids.length → ∃ idx : List ℕ,
        out.getD i ("", []) = (sim.task_ids.getD i "",
          idx.map (fun j => (sim.code_ids.getD j "",
            (sim.matrix.getD i []).getD j 0))) ∧
        idx.length = (if (max 0 (min k (sim.code_ids.length : ℤ))).toNat = 0
          then sim.code_ids.length
          else (max 0 (min k (sim.code_ids.length : ℤ))).toNat) ∧
        (∀ j ∈ idx, j < sim.code_ids.length) ∧
        idx.Pairwise (fun a b => scoreIdxLt (sim.matrix.getD i []) b a) ∧
        (∀ j ∈ idx, ∀ j2, j2 < sim.code_ids.length → j2 ∉ idx →
          scoreIdxLt (sim.matrix.getD i []) j2 j)) := by
  rcases hm : sim.matrix with _ | ⟨r, rs⟩
  · have ht0 : sim.task_ids = [] := by
      rw [hm] at hN
      exact List.length_eq_zero.mp hN.symm
    refine ⟨[], ?_, ?_, ?_⟩
    · simp [top_k_matches, hm, ht0]
    · rw [ht0]
      rfl
    · intro i hi
      rw [ht0] at hi
      cases hi
  · rw [hm] at hrect hN hM
    have hhead : ((r :: rs).headD []) = r := rfl
    rw [hhead] at hM
    have hok : top_k_matches sim k = Except.ok
        ((List.range (r :: rs).length).map (fun i =>
          (sim.task_ids.getD i "",
            ((tailSlice (argsortAsc ((r :: rs).getD i []))
              ((max 0 (min k ((r.length : ℤ)))).toNat)).reverse).map
              (fun j => (sim.code_ids.getD j "",
                ((r :: rs).getD i []).getD j 0))))) := by
      simp only [top_k_matches, hm]
      rw [if_neg (by simp)]
      rw [if_neg (not_not_intro hrect)]
      rw [hhead]
      rw [if_neg (by rw [hN]; exact lt_irrefl _)]
      rw [if_neg (by rw [hM]; exact lt_irrefl _)]
    refine ⟨_, hok, ?_, ?_⟩
    · rw [List.length_map, List.length_range]
      exact hN
    · intro i hi
      have hiM : i < (r :: rs).length := by
        rw [hN]
        exact hi
      have hrowmem : (r :: rs).getD i [] ∈ (r :: rs) := by
        rw [List.getD_eq_getElem _ _ hiM]
        exact List.getElem_mem hiM
      have hrowlen : ((r :: rs).getD i []).length = sim.code_ids.length := by
        rw [← hM]
        exact isRectangular_len hrect _ hrowmem
      set row := (r :: rs).getD i [] with hrow
      set s := argsortAsc row with hsdef
      set keff := (max 0 (min k ((r.length : ℤ)))).toNat with hkeff
      have hkeq : (max 0 (min k ((sim.code_ids.length : ℤ)))).toNat = keff := by
        rw [hkeff, ← hM]
      have hLs : s.length = row.length := argsortAsc_length row
      have hkle : keff ≤ row.length := by
        rw [hkeff, ← hM, ← hrowlen] at *
        refine Int.toNat_le.mpr (max_le (Int.ofNat_nonneg _) (min_le_right _ _))
      have hmlt : i < ((List.range (r :: rs).length).map (fun i2 =>
          (sim.task_ids.getD i2 "",
            ((tailSlice (argsortAsc ((r :: rs).getD i2 [])) keff).reverse).map
              (fun j => (sim.code_ids.getD j "",
                ((r :: rs).getD i2 []).getD j 0))))).length := by
        rw [List.length_map, List.length_range]
        exact hiM
      have hgetD : ((List.range (r :: rs).length).map (fun i2 =>
          (sim.task_ids.getD i2 "",
            ((tailSlice (argsortAsc ((r :: rs).getD i2 [])) keff).reverse).map
              (fun j => (sim.code_ids.getD j "",
                ((r :: rs).getD i2 []).getD j 0))))).getD i ("", []) =
          (sim.task_ids.getD i "",
            ((tailSlice s keff).reverse).map
              (fun j => (sim.code_ids.getD j "", row.getD j 0))) := by
        rw [List.getD_eq_getElem _ _ hmlt, List.getElem_map,
          List.getElem_range]
      refine ⟨(tailSlice s keff).reverse, hgetD, ?_, ?_, ?_, ?_⟩
      · rw [hkeq]
        by_cases hk0 : keff = 0
        · rw [if_pos hk0, hk0]
          unfold tailSlice
          rw [if_pos rfl, List.length_reverse, hLs, hrowlen]
        · rw [if_neg hk0]
          unfold tailSlice
          rw [if_neg hk0, List.length_reverse, List.length_drop]
          omega
      · intro j hj
        rw [List.mem_reverse] at hj
        have hjs : j ∈ s := by
          unfold tailSlice at hj
          split at hj
          · exact hj
          · exact (List.drop_sublist _ _).mem hj
        rw [← hrowlen]
        exact argsortAsc_mem hjs
      · rw [List.pairwise_reverse]
        have hstrict : s.Pairwise (scoreIdxLt row) :=
          argsortAsc_pairwise_strict row
        unfold tailSlice
        split
        · exact hstrict
        · exact List.Pairwise.sublist (List.drop_sublist _ _) hstrict
      · intro j hj j2 hj2 hj2n
        rw [List.mem_reverse] at hj
        rw [List.mem_reverse] at hj2n
        have hj2s : j2 ∈ s := by
          rw [hsdef]
          refine ((argsortAsc_perm row).mem_iff).mpr ?_
          rw [List.mem_range, ← hrowlen] at *
          exact hj2
        unfold tailSlice at hj hj2n
        by_cases hk0 : keff = 0
        · rw [if_pos hk0] at hj2n
          exact absurd hj2s hj2n
        · rw [if_neg hk0] at hj hj2n
          have hsplit := List.take_append_drop (s.length - keff) s
          have hj2t : j2 ∈ s.take (s.length - keff) := by
            have := List.mem_append.mp (by rw [hsplit]; exact hj2s :
              j2 ∈ s.take (s.length - keff) ++ s.drop (s.length - keff))
            rcases this with h | h
            · exact h
            · exact absurd h hj2n
          have hpair : List.Pairwise (scoreIdxLt row)
              (s.take (s.length - keff) ++ s.drop (s.length - keff)) := by
            rw [hsplit]
            exact argsortAsc_pairwise_strict row
          exact ((List.pairwise_append.mp hpair).2.2) j2 hj2t j hj

/-- Witness for C3 (amended) at the tied row `[1, 1]` with `k = 2`. -/
theorem top_k_matches_spec_witness :
    ∃ out, top_k_matches ⟨["t"], ["c0", "c1"], [[1, 1]]⟩ 2 = Except.ok out ∧
      out.length = (["t"] : List String).length ∧
      (∀ i, i < (["t"] : List String).length → ∃ idx : List ℕ,
        out.getD i ("", []) = ((["t"] : List String).getD i "",
          idx.map (fun j => ((["c0", "c1"] : List String).getD j "",
            (([[1, 1]] : List (List ℚ)).getD i []).getD j 0))) ∧
        idx.length = (if (max 0 (min 2 ((["c0", "c1"] : List String).length : ℤ))).toNat = 0
          then (["c0", "c1"] : List String).length
          else (max 0 (min 2 ((["c0", "c1"] : List String).length : ℤ))).toNat) ∧
        (∀ j ∈ idx, j < (["c0", "c1"] : List String).length) ∧
        idx.Pairwise (fun a b => scoreIdxLt (([[1, 1]] : List (List ℚ)).getD i []) b a) ∧
        (∀ j ∈ idx, ∀ j2, j2 < (["c0", "c1"] : List String).length → j2 ∉ idx →
          scoreIdxLt (([[1, 1]] : List (List ℚ)).getD i []) j2 j)) :=
  top_k_matches_spec ⟨["t"], ["c0", "c1"], [[1, 1]]⟩ 2 (by decide) (by decide)
    (by decide)

end COVADEV
